import Mathlib

/-!
# Verification of the schematools schema-traversal engine

Shallow embedding of the repository's source (src/paths.ts, src/schemas.ts,
src/registry.ts).  The repository contains two variants of schemas.ts and
registry.ts; definitions from the first variant carry the source names, and
definitions from the second variant carry a `V2` suffix.

JavaScript values are modelled as follows: `undefined`/`null` become
`Option.none`; a JS object's relevant fields become `Option`-valued fields of
the `Schema` inductive; JS string-keyed maps become association lists in
insertion order; JS numbers appearing in property paths become `Int` with a
separate `nan` constructor for `NaN`.  Functions whose recursion is not
structurally bounded in the source (reference chains supplied by the resolver
can loop) take a fuel parameter; exhausting fuel yields `Err.fuelOut` (or
`none` for `mapPaths`), which models divergence of the source.  The in-place
mutation performed by lodash `_.reverse` in `findPropertyInSchema` is modelled
by explicit state passing: the function returns its result together with the
post-call state of its (tree-shaped, alias-free) schema argument.
-/

namespace Schematools

/-- A property-path segment as produced by `dottedPathToArray` in
src/paths.ts: a string key, a JS number (`-1` is the wildcard sentinel), or
JS `NaN` (which `parseInt` returns on non-numeric input). -/
inductive Seg : Type where
  | str (s : String)
  | num (n : Int)
  | nan
deriving DecidableEq, Repr

/-- A schema node (the keys of the "extended JSON schema" dialect that
src/schemas.ts inspects; unknown keys are never read by the traversal code and
are omitted).  `none` models an absent key / `undefined` value. -/
inductive Schema : Type where
  | mk
    (ref : Option String)
    (type : Option String)
    (properties : Option (List (String × Schema)))
    (items : Option Schema)
    (allOf : Option (List Schema))
    (oneOf : Option (List Schema))
    (required : Option (List String))
    (transient : Option Bool)
    (entityType : Option String)
    (storage : Option String)
    (foreignKey : Option String)

def optBeqWith {α : Type} (f : α → α → Bool) : Option α → Option α → Bool
  | none, none => true
  | some x, some y => f x y
  | _, _ => false

def listBeqWith {α : Type} (f : α → α → Bool) : List α → List α → Bool
  | [], [] => true
  | x :: xs, y :: ys => f x y && listBeqWith f xs ys
  | _, _ => false

def propsBeqWith (f : Schema → Schema → Bool) :
    List (String × Schema) → List (String × Schema) → Bool
  | [], [] => true
  | (k1, v1) :: xs, (k2, v2) :: ys => k1 == k2 && f v1 v2 && propsBeqWith f xs ys
  | _, _ => false

/-- Structural equality on schema nodes, by recursion on a fuel that must
exceed the nesting depth of the left argument (on deeper values it yields
`false`).  This models the JS `===` identity test used by
`nodesTraversedInPath.includes(schema)`: the traversal code only ever
compares schema values obtained from the same registry/resolver, for which
structural equality of the embedded values coincides with JS object identity
(all distinct nodes in the embedded graphs are structurally distinct).  The
traversal functions below pass their own fuel, so at the fuel used in every
theorem of this file the comparison is exact. -/
def beqSF : Nat → Schema → Schema → Bool
  | 0, _, _ => false
  | fuel + 1, .mk r1 t1 p1 i1 a1 o1 q1 tr1 e1 st1 f1,
      .mk r2 t2 p2 i2 a2 o2 q2 tr2 e2 st2 f2 =>
    r1 == r2 && t1 == t2 && optBeqWith (propsBeqWith (beqSF fuel)) p1 p2 &&
      optBeqWith (beqSF fuel) i1 i2 && optBeqWith (listBeqWith (beqSF fuel)) a1 a2 &&
      optBeqWith (listBeqWith (beqSF fuel)) o1 o2 && q1 == q2 && tr1 == tr2 &&
      e1 == e2 && st1 == st2 && f1 == f2

/-- `nodesTraversedInPath.includes(schema)` (lines 291, 438, 800, 975). -/
def nodesInclude (fuel : Nat) (nodes : List Schema) (schema : Schema) : Bool :=
  nodes.any (beqSF fuel schema)

namespace Schema

def ref : Schema → Option String
  | .mk r _ _ _ _ _ _ _ _ _ _ => r

def type : Schema → Option String
  | .mk _ t _ _ _ _ _ _ _ _ _ => t

def properties : Schema → Option (List (String × Schema))
  | .mk _ _ p _ _ _ _ _ _ _ _ => p

def items : Schema → Option Schema
  | .mk _ _ _ i _ _ _ _ _ _ _ => i

def allOf : Schema → Option (List Schema)
  | .mk _ _ _ _ a _ _ _ _ _ _ => a

def oneOf : Schema → Option (List Schema)
  | .mk _ _ _ _ _ o _ _ _ _ _ => o

def required : Schema → Option (List String)
  | .mk _ _ _ _ _ _ q _ _ _ _ => q

def transient : Schema → Option Bool
  | .mk _ _ _ _ _ _ _ tr _ _ _ => tr

def entityType : Schema → Option String
  | .mk _ _ _ _ _ _ _ _ e _ _ => e

def storage : Schema → Option String
  | .mk _ _ _ _ _ _ _ _ _ st _ => st

def foreignKey : Schema → Option String
  | .mk _ _ _ _ _ _ _ _ _ _ f => f

/-- Replace the `allOf` field (used to model in-place mutation of the array). -/
def setAllOf : Schema → Option (List Schema) → Schema
  | .mk r t p i _ o q tr e st f, a => .mk r t p i a o q tr e st f

/-- Replace the `oneOf` field. -/
def setOneOf : Schema → Option (List Schema) → Schema
  | .mk r t p i a _ q tr e st f, o => .mk r t p i a o q tr e st f

/-- Replace the `properties` field. -/
def setProperties : Schema → Option (List (String × Schema)) → Schema
  | .mk r t _ i a o q tr e st f, p => .mk r t p i a o q tr e st f

/-- Replace the `items` field. -/
def setItems : Schema → Option Schema → Schema
  | .mk r t p _ a o q tr e st f, i => .mk r t p i a o q tr e st f

end Schema

/-- A schema with every key absent (`{}`). -/
def emptySchema : Schema :=
  .mk none none none none none none none none none none none

/-- `SchemaRefResolver` from src/schemas.ts: `(schemaRef: string) => Schema | undefined`. -/
def SchemaRefResolver : Type := String → Option Schema

/-! ## Path codec (src/paths.ts) -/

/-- Digits-to-number accumulation, as performed by JS `parseInt` once it has
isolated the leading digit run. -/
def digitsVal (ds : List Char) : Nat :=
  ds.foldl (fun acc c => acc * 10 + (c.toNat - '0'.toNat)) 0

/-- JS `parseInt(s)` (radix 10, no `0x` handling, which never arises here):
skip leading whitespace, read an optional sign and a leading digit run;
`none` models the `NaN` result when no digit is found. -/
def jsParseInt (s : String) : Option Int :=
  let cs := s.toList.dropWhile fun c => c = ' ' || c = '\t' || c = '\n' || c = '\r'
  match cs with
  | '-' :: r =>
    let ds := r.takeWhile (·.isDigit)
    if ds = [] then none else some (-(digitsVal ds : Int))
  | '+' :: r =>
    let ds := r.takeWhile (·.isDigit)
    if ds = [] then none else some (digitsVal ds : Int)
  | r =>
    let ds := r.takeWhile (·.isDigit)
    if ds = [] then none else some (digitsVal ds : Int)

/-- The `\.?` part of the regex in `dottedPathToArray`: consume one optional
dot after the closing bracket. -/
def dropDot (l : List Char) : List Char :=
  match l with
  | [] => []
  | c :: r => if c = '.' then r else c :: r

theorem dropDot_length_le (l : List Char) : (dropDot l).length <= l.length := by
  cases l with
  | nil => simp [dropDot]
  | cons c r => rw [dropDot]; split <;> simp

/-- The bracket content part of the regex `\[([0-9]+|\*)\]\.?`: starting right
after a `[`, read either `*` or a nonempty digit run, then `]` and an optional
`.`; returns the captured group 2 and the remaining input (regex group 3). -/
def innerParse (cs : List Char) : Option (List Char × List Char) :=
  if cs.takeWhile (·.isDigit) = [] then
    match cs with
    | [] => none
    | [_] => none
    | c1 :: c2 :: r => if c1 = '*' ∧ c2 = ']' then some (['*'], dropDot r) else none
  else
    match cs.drop (cs.takeWhile (·.isDigit)).length with
    | [] => none
    | c :: r => if c = ']' then some (cs.takeWhile (·.isDigit), dropDot r) else none

theorem innerParse_length_lt {cs i rest : List Char} (h : innerParse cs = some (i, rest)) :
    rest.length < cs.length := by
  rw [innerParse.eq_def] at h
  split at h
  · split at h
    · exact absurd h (by simp)
    · exact absurd h (by simp)
    · rename_i c1 c2 r _hc
      split at h
      · cases h
        have := dropDot_length_le r
        simp only [List.length_cons]; omega
      · exact absurd h (by simp)
  · split at h
    · exact absurd h (by simp)
    · rename_i c r heq
      split at h
      · cases h
        have hlen := congrArg List.length heq
        simp only [List.length_drop, List.length_cons] at hlen
        have := dropDot_length_le r
        omega
      · exact absurd h (by simp)

/-- One application of the regex `^([^[]*)\[([0-9]+|\*)\]\.?(.*)$` from
`dottedPathToArray`: `some (group1, group2, group3)` on a match, `none` when
the regex fails (because `[^[]*` cannot extend past the first `[`, the regex
matches iff the first `[` of the string is followed by digits-or-star and `]`). -/
def bracketSplit : List Char → Option (List Char × List Char × List Char)
  | [] => none
  | c :: r =>
    if c = '[' then (innerParse r).map fun x => ([], x.1, x.2)
    else (bracketSplit r).map fun x => (c :: x.1, x.2.1, x.2.2)

theorem bracketSplit_length_lt {cs pre i rest : List Char}
    (h : bracketSplit cs = some (pre, i, rest)) : rest.length < cs.length := by
  induction cs generalizing pre i rest with
  | nil => simp [bracketSplit] at h
  | cons c r ih =>
    rw [bracketSplit] at h
    split at h
    · simp only [Option.map_eq_some'] at h
      obtain ⟨⟨i', rest'⟩, hip, heq⟩ := h
      cases heq
      have := innerParse_length_lt hip
      simp only [List.length_cons]; omega
    · simp only [Option.map_eq_some'] at h
      obtain ⟨⟨pre', i', rest'⟩, hbs, heq⟩ := h
      cases heq
      have := ih hbs
      simp only [List.length_cons]; omega

/-- The `while (tail.length > 0)` loop of `dottedPathToArray`
(src/paths.ts lines 21-44), written with a fuel parameter so that it is
structurally recursive (and hence kernel-computable); `dottedGoF_congr` below
shows any fuel above the input length gives the same answer, so the fuel is
only a termination device and the `0` case is unreachable from
`dottedPathToArray`.  On a regex match the loop pushes group 1 (even when
empty), then the index segment — `-1` for `*`, else `parseInt(match[1])`,
i.e. `parseInt` applied to the text *before* the bracket (the source uses
`match[1]`, not the captured digits `match[2]`), which yields `NaN` for any
non-numeric property name; on a regex failure it pushes the whole remaining
tail as one segment (in particular, dots alone never split anything). -/
def dottedGoF : Nat → List Char → List Seg
  | 0, _ => []
  | fuel + 1, cs =>
    if cs.isEmpty then []
    else
      match bracketSplit cs with
      | none => [.str (String.mk cs)]
      | some (pre, inner, rest) =>
        .str (String.mk pre) ::
          (if inner = ['*'] then Seg.num (-1)
           else
             match jsParseInt (String.mk pre) with
             | some n => Seg.num n
             | none => Seg.nan) ::
          dottedGoF fuel rest

theorem dottedGoF_congr :
    ∀ (k : Nat) (cs : List Char) (m n : Nat), cs.length < m → cs.length < n →
      cs.length ≤ k → dottedGoF m cs = dottedGoF n cs := by
  intro k
  induction k with
  | zero =>
    intro cs m n hm hn hk
    match m, n, cs with
    | m + 1, n + 1, cs =>
      have hcs : cs = [] := List.eq_nil_of_length_eq_zero (by omega)
      subst hcs
      rfl
  | succ k ih =>
    intro cs m n hm hn hk
    match m, n with
    | m + 1, n + 1 =>
      rw [dottedGoF, dottedGoF]
      cases hcs : cs.isEmpty
      · simp only [Bool.false_eq_true, if_false]
        cases hbs : bracketSplit cs with
        | none => rfl
        | some x =>
          obtain ⟨pre, inner, rest⟩ := x
          have hlt := bracketSplit_length_lt hbs
          dsimp only
          rw [ih rest m n (by omega) (by omega) (by omega)]
      · simp only [if_true]

/-- `dottedPathToArray` from src/paths.ts. -/
def dottedPathToArray (path : String) : List Seg :=
  dottedGoF (path.toList.length + 1) path.toList

/-- How a non-first path element is rendered by `arrayToDottedPath`:
numbers in brackets (`-1` as `[*]`, `NaN` as `[NaN]` since `_.isNumber(NaN)`
holds and `NaN == -1` fails), strings behind a dot. -/
def segTailStr : Seg → String
  | .str s => "." ++ s
  | .num n => if n = -1 then "[*]" else "[" ++ toString n ++ "]"
  | .nan => "[NaN]"

/-- How the first path element is rendered by `arrayToDottedPath`: bare
template interpolation `${firstElement}` (so a number is rendered without
brackets and `-1` is *not* rendered as `*`). -/
def segHeadStr : Seg → String
  | .str s => s
  | .num n => toString n
  | .nan => "NaN"

/-- `arrayToDottedPath` from src/paths.ts. -/
def arrayToDottedPath : List Seg → String
  | [] => ""
  | first :: rest => segHeadStr first ++ String.join (rest.map segTailStr)

/-- `pathDepth` from src/paths.ts, specialized to the array representation
(`propertyPathToArray` is the identity on arrays). -/
def pathDepth (path : List Seg) : Nat :=
  path.length

/-- `propertyPathToDottedPath` from src/paths.ts, specialized to the array
representation. -/
def propertyPathToDottedPath (path : List Seg) : String :=
  arrayToDottedPath path

/-! ## Shared helpers for the traversal engine (src/schemas.ts) -/

/-- `SchemaError` (src/errors.js) plus fuel exhaustion.  `fuelOut` models a
JS call that never returns (unbounded recursion); every claim below is stated
so that `fuelOut` never occurs at sufficient fuel. -/
inductive Err where
  | fuelOut
  | schemaError (msg : String)
deriving DecidableEq, Repr

/-- The `Relationship` record of src/schemas.ts. -/
structure Relationship where
  path : String
  toMany : Bool
  storage : String
  entityTypeName : Option String
  schemaRef : Option String
  schema : Schema
  foreignKeyPath : Option String
  depthFromParent : Nat

/-- JS property access `obj[seg]` coerces the key to a string: numbers render
in decimal, `NaN` as `"NaN"`. -/
def segKey : Seg → String
  | .str s => s
  | .num n => toString n
  | .nan => "NaN"

/-- Lookup in a JS object's key/value pairs (keys are unique). -/
def propsLookup (props : List (String × Schema)) (key : String) : Option Schema :=
  (props.find? (·.1 == key)).map (·.2)

/-- Replace the value stored under `key` (models in-place assignment to a
field of a JS object reached through an alias). -/
def propsUpdate (props : List (String × Schema)) (key : String) (v : Schema) :
    List (String × Schema) :=
  props.map fun kv => if kv.1 == key then (kv.1, v) else kv

/-- `acc = acc.concat(f x)` over a loop, with JS exceptions propagating via
`Except`: the first failing iteration aborts the loop. -/
def concatMapM {α β : Type} (f : α → Except Err (List β)) : List α → Except Err (List β)
  | [] => .ok []
  | x :: rest => do
    let r ← f x
    let rs ← concatMapM f rest
    pure (r ++ rs)

/-- The object literal `relationshipProperties` built at the top of both
variants of `findRelationshipsInSchema` (lines 240-245 and 772-777): all four
keys are always present (with value `undefined` when the schema omits the
field). -/
structure RelProps where
  entityTypeName : Option String
  foreignKeyPath : Option String
  schemaRef : Option String
  storage : Option String
deriving DecidableEq, Repr

def relPropsOf (s : Schema) : RelProps :=
  { entityTypeName := s.entityType
    foreignKeyPath := s.foreignKey
    schemaRef := s.ref
    storage := s.storage }

/-- The update `relationshipProperties = { entityTypeName:
referencedSchema.entityType, …, ...relationshipProperties }` (lines 257-263 and
789-795).  JS object spread copies every own enumerable key — *including keys
whose value is `undefined`* — and `relationshipProperties` is an object
literal that always contains all four keys; therefore every field of the
result comes from the overlay and the referenced schema's values written
first are all overwritten, even by `undefined`. -/
def spreadMerge (_refProps : RelProps) (orig : RelProps) : RelProps :=
  { entityTypeName := orig.entityTypeName
    foreignKeyPath := orig.foreignKeyPath
    schemaRef := orig.schemaRef
    storage := orig.storage }

/-- The `while (schemaOption && schemaOption.$ref)` loops inside variant-1
`findPropertyInSchema` (lines 126-128 and 144-146): repeatedly resolve until
the current value is absent or has no `$ref`.  `none` = fuel exhausted
(a reference cycle makes the JS loop spin forever). -/
def refChain : Nat → Option Schema → SchemaRefResolver → Option (Option Schema)
  | _, none, _ => some none
  | 0, some s, _ => if s.ref.isSome then none else some (some s)
  | fuel + 1, some s, res =>
    match s.ref with
    | none => some (some s)
    | some r => refChain fuel (res r) res

/-- The `while (schema.$ref)` loop of variant-1 `findRelationshipsInSchema`
(lines 251-265): follow the reference chain, rebuilding
`relationshipProperties` by `spreadMerge` at each hop (which keeps the
original node's values, see `spreadMerge`), and return the final schema.
`ok none` models the `return []` taken when a hop fails to resolve. -/
def derefChainRel : Nat → Schema → SchemaRefResolver → RelProps →
    Except Err (Option (RelProps × Schema))
  | 0, s, _, props => if s.ref.isSome then .error .fuelOut else .ok (some (props, s))
  | fuel + 1, s, res, props =>
    match s.ref with
    | none => .ok (some (props, s))
    | some r =>
      match res r with
      | none => .ok none
      | some referenced => derefChainRel fuel referenced res (spreadMerge (relPropsOf referenced) props)

/-- The `while (schema.$ref)` loop of variant-1
`findTransientPropertiesInSchema` (lines 424-435): follow the chain,
updating the local `transient` only while it is still `undefined`. -/
def derefChainTrans : Nat → Schema → SchemaRefResolver → Option Bool →
    Except Err (Option (Option Bool × Schema))
  | 0, s, _, transient => if s.ref.isSome then .error .fuelOut else .ok (some (transient, s))
  | fuel + 1, s, res, transient =>
    match s.ref with
    | none => .ok (some (transient, s))
    | some r =>
      match res r with
      | none => .ok none
      | some referenced =>
        derefChainTrans fuel referenced res
          (if transient = none then referenced.transient else transient)

/-- Lines 268-288 of variant-1 `findRelationshipsInSchema` (also lines
835-858 of variant 2): if the node has an (allowed) storage class, build the
`Relationship` record for the current path; an `inverse-ref` without a
foreign key path throws `SchemaError`. -/
def recordRel (props : RelProps) (schema : Schema) (currentPath : List Seg)
    (depthFromParent : Nat) (allowedStorage : Option (List String)) :
    Except Err (List Relationship) :=
  match props.storage with
  | none => .ok []
  | some st =>
    if (match allowedStorage with | none => true | some l => l.contains st) then
      if st = "inverse-ref" then
        match props.foreignKeyPath with
        | none => .error (.schemaError
            "Missing foreign key path in relationship with storage type inverse-ref")
        | some fk =>
          .ok [{ path := propertyPathToDottedPath currentPath
                 toMany := false
                 storage := st
                 entityTypeName := props.entityTypeName
                 schemaRef := props.schemaRef
                 schema := schema
                 foreignKeyPath := some fk
                 depthFromParent := depthFromParent }]
      else
        .ok [{ path := propertyPathToDottedPath currentPath
               toMany := false
               storage := st
               entityTypeName := props.entityTypeName
               schemaRef := props.schemaRef
               schema := schema
               foreignKeyPath := none
               depthFromParent := depthFromParent }]
    else .ok []

/-- `relationshipIsReference` (line 268 / 835): the storage class crosses a
document boundary. -/
def storageIsReference (props : RelProps) : Bool :=
  match props.storage with
  | some st => st == "ref" || st == "inverse-ref"
  | none => false

/-! ## Relationship Finder (src/schemas.ts, variant 1 lines 224-380,
variant 2 lines 758-917) -/

/-- Variant-1 `findRelationshipsInSchema`.  Parameters follow the source:
`allowedStorage`, `limitToPath`, `maxDepth` are the caller-facing options,
`currentPath`, `nodesTraversedInPath`, `depthFromParent` the recursion
bookkeeping.  The fuel argument makes the (possibly diverging) recursion
total; `Err.fuelOut` models divergence.

Faithfulness notes: the relationship is recorded (lines 267-288) *before* the
cycle/depth stop checks (lines 290-298), but both stop branches `return []`,
discarding the freshly recorded relationship; the cycle check fires only when
`maxDepth` is `undefined`; `allOf`/`oneOf` recursion passes `limitToPath`
unsliced and `depthFromParent` unchanged; object children get depth `0` when
the current node's storage is `ref`/`inverse-ref`, else `depth + 1`; array
`items` get path segment `-1` (the wildcard) and depth `+ 1`. -/
def findRelationshipsInSchema :
    Nat → Schema → SchemaRefResolver → Option (List String) → Option (List Seg) →
    Option Nat → List Seg → List Schema → Nat → Except Err (List Relationship)
  | 0, _, _, _, _, _, _, _, _ => .error .fuelOut
  | fuel + 1, schema0, res, allowedStorage, limitToPath, maxDepth, currentPath, nodes,
      depthFromParent =>
    match derefChainRel (fuel + 1) schema0 res (relPropsOf schema0) with
    | .error e => .error e
    | .ok none => .ok []
    | .ok (some (props, schema)) =>
      let relationshipIsReference := storageIsReference props
      match recordRel props schema currentPath depthFromParent allowedStorage with
      | .error e => .error e
      | .ok recorded =>
        let traverse : Unit → Except Err (List Relationship) := fun _ =>
          match (match schema.allOf with | some l => some l | none => schema.oneOf) with
          | some opts =>
            (concatMapM (fun o =>
              findRelationshipsInSchema fuel o res allowedStorage limitToPath maxDepth
                currentPath (nodes ++ [schema]) depthFromParent) opts).map (recorded ++ ·)
          | none =>
            match schema.type with
            | some "object" =>
              let propertySchemas := schema.properties.getD []
              let keysAll := propertySchemas.map (·.1)
              let propertiesToTraverse :=
                match limitToPath with
                | none => keysAll
                | some l =>
                  match l.head? with
                  | some (.str p) => if keysAll.contains p then [p] else []
                  | _ => []
              (concatMapM (fun p =>
                match propsLookup propertySchemas p with
                | some sub =>
                  findRelationshipsInSchema fuel sub res allowedStorage
                    (limitToPath.map (·.drop 1)) maxDepth (currentPath ++ [.str p])
                    (nodes ++ [schema])
                    (if relationshipIsReference then 0 else depthFromParent + 1)
                | none => .ok []) propertiesToTraverse).map (recorded ++ ·)
            | some "array" =>
              if (match limitToPath with | none => true | some l => decide (l.length > 0)) then
                match schema.items with
                | some itemsSchema =>
                  (findRelationshipsInSchema fuel itemsSchema res allowedStorage
                    (limitToPath.map (·.drop 1)) maxDepth (currentPath ++ [.num (-1)])
                    (nodes ++ [schema]) (depthFromParent + 1)).map (recorded ++ ·)
                | none => .ok recorded
              else .ok recorded
            | _ => .ok recorded
        match maxDepth with
        | none => if nodesInclude (fuel + 1) nodes schema then .ok [] else traverse ()
        | some md => if pathDepth currentPath > md then .ok [] else traverse ()

/-- Variant-2 `findRelationshipsInSchema` (lines 758-917).  Differences from
variant 1: the `$ref` is followed a single hop (`if`, not `while`); the
cycle/depth stop checks run *before* any relationship is recorded; and the
relationship record is built only inside the `object` branch of the type
switch, so a relationship node whose (resolved) schema is not an object
schema is never reported and never raises the missing-foreign-key error. -/
def findRelationshipsInSchemaV2 :
    Nat → Schema → SchemaRefResolver → Option (List String) → Option (List Seg) →
    Option Nat → List Seg → List Schema → Nat → Except Err (List Relationship)
  | 0, _, _, _, _, _, _, _, _ => .error .fuelOut
  | fuel + 1, schema0, res, allowedStorage, limitToPath, maxDepth, currentPath, nodes,
      depthFromParent =>
    let props0 := relPropsOf schema0
    let afterRef : Option (RelProps × Schema) :=
      match schema0.ref with
      | none => some (props0, schema0)
      | some r =>
        match res r with
        | none => none
        | some referenced => some (spreadMerge (relPropsOf referenced) props0, referenced)
    match afterRef with
    | none => .ok []
    | some (props, schema) =>
      let traverse : Unit → Except Err (List Relationship) := fun _ =>
        match (match schema.allOf with | some l => some l | none => schema.oneOf) with
        | some opts =>
          concatMapM (fun o =>
            findRelationshipsInSchemaV2 fuel o res allowedStorage limitToPath maxDepth
              currentPath (nodes ++ [schema]) depthFromParent) opts
        | none =>
          match schema.type with
          | some "object" =>
            let relationshipIsReference := storageIsReference props
            match recordRel props schema currentPath depthFromParent allowedStorage with
            | .error e => .error e
            | .ok recorded =>
              let propertySchemas := schema.properties.getD []
              let keysAll := propertySchemas.map (·.1)
              let propertiesToTraverse :=
                match limitToPath with
                | none => keysAll
                | some l =>
                  match l.head? with
                  | some (.str p) => if keysAll.contains p then [p] else []
                  | _ => []
              (concatMapM (fun p =>
                match propsLookup propertySchemas p with
                | some sub =>
                  findRelationshipsInSchemaV2 fuel sub res allowedStorage
                    (limitToPath.map (·.drop 1)) maxDepth (currentPath ++ [.str p])
                    (nodes ++ [schema])
                    (if relationshipIsReference then 0 else depthFromParent + 1)
                | none => .ok []) propertiesToTraverse).map (recorded ++ ·)
          | some "array" =>
            if (match limitToPath with | none => true | some l => decide (l.length > 0)) then
              match schema.items with
              | some itemsSchema =>
                findRelationshipsInSchemaV2 fuel itemsSchema res allowedStorage
                  (limitToPath.map (·.drop 1)) maxDepth (currentPath ++ [.num (-1)])
                  (nodes ++ [schema]) (depthFromParent + 1)
              | none => .ok []
            else .ok []
          | _ => .ok []
      match maxDepth with
      | none => if nodesInclude (fuel + 1) nodes schema then .ok [] else traverse ()
      | some md => if pathDepth currentPath > md then .ok [] else traverse ()

/-! ## Transient-Property Finder (src/schemas.ts, variant 1 lines 405-524,
variant 2 lines 942-1061) -/

/-- Variant-1 `findTransientPropertiesInSchema`.  The local `transient`
value computed by `derefChainTrans` (referencing node taking precedence) is
bound but *never read afterwards*: the recording step at lines 448-452 tests
`schema.transient` on the schema obtained after reference following, exactly
as the source does. -/
def findTransientPropertiesInSchema :
    Nat → Schema → SchemaRefResolver → Option (List Seg) → Option Nat →
    List Seg → List Schema → Except Err (List String)
  | 0, _, _, _, _, _, _ => .error .fuelOut
  | fuel + 1, schema0, res, limitToPath, maxDepth, currentPath, nodes =>
    match derefChainTrans (fuel + 1) schema0 res schema0.transient with
    | .error e => .error e
    | .ok none => .ok []
    | .ok (some (_transient, schema)) =>
      let recorded : List String :=
        if pathDepth currentPath = 0 then []
        else if schema.transient = some true then [propertyPathToDottedPath currentPath]
        else []
      let traverse : Unit → Except Err (List String) := fun _ =>
        match (match schema.allOf with | some l => some l | none => schema.oneOf) with
        | some opts =>
          (concatMapM (fun o =>
            findTransientPropertiesInSchema fuel o res limitToPath maxDepth
              currentPath (nodes ++ [schema])) opts).map (recorded ++ ·)
        | none =>
          match schema.type with
          | some "object" =>
            let propertySchemas := schema.properties.getD []
            let keysAll := propertySchemas.map (·.1)
            let propertiesToTraverse :=
              match limitToPath with
              | none => keysAll
              | some l =>
                match l.head? with
                | some (.str pr) => if keysAll.contains pr then [pr] else []
                | _ => []
            (concatMapM (fun pr =>
              match propsLookup propertySchemas pr with
              | some sub =>
                findTransientPropertiesInSchema fuel sub res (limitToPath.map (·.drop 1))
                  maxDepth (currentPath ++ [.str pr]) (nodes ++ [schema])
              | none => .ok []) propertiesToTraverse).map (recorded ++ ·)
          | some "array" =>
            if (match limitToPath with | none => true | some l => decide (l.length > 0)) then
              match schema.items with
              | some itemsSchema =>
                (findTransientPropertiesInSchema fuel itemsSchema res
                  (limitToPath.map (·.drop 1)) maxDepth (currentPath ++ [.num (-1)])
                  (nodes ++ [schema])).map (recorded ++ ·)
              | none => .ok recorded
            else .ok recorded
          | _ => .ok recorded
      match maxDepth with
      | none => if nodesInclude (fuel + 1) nodes schema then .ok [] else traverse ()
      | some md => if pathDepth currentPath > md then .ok [] else traverse ()

/-- Variant-2 `findTransientPropertiesInSchema` (lines 942-1061): identical to
variant 1 except that the `$ref` is followed a single hop (`if`, not
`while`); the recording step likewise tests `schema.transient` on the
resolved schema, ignoring the computed `transient` local. -/
def findTransientPropertiesInSchemaV2 :
    Nat → Schema → SchemaRefResolver → Option (List Seg) → Option Nat →
    List Seg → List Schema → Except Err (List String)
  | 0, _, _, _, _, _, _ => .error .fuelOut
  | fuel + 1, schema0, res, limitToPath, maxDepth, currentPath, nodes =>
    let afterRef : Option (Option Bool × Schema) :=
      match schema0.ref with
      | none => some (schema0.transient, schema0)
      | some r =>
        match res r with
        | none => none
        | some referenced =>
          some ((if schema0.transient = none then referenced.transient else schema0.transient),
            referenced)
    match afterRef with
    | none => .ok []
    | some (_transient, schema) =>
      let recorded : List String :=
        if pathDepth currentPath = 0 then []
        else if schema.transient = some true then [propertyPathToDottedPath currentPath]
        else []
      let traverse : Unit → Except Err (List String) := fun _ =>
        match (match schema.allOf with | some l => some l | none => schema.oneOf) with
        | some opts =>
          (concatMapM (fun o =>
            findTransientPropertiesInSchemaV2 fuel o res limitToPath maxDepth
              currentPath (nodes ++ [schema])) opts).map (recorded ++ ·)
        | none =>
          match schema.type with
          | some "object" =>
            let propertySchemas := schema.properties.getD []
            let keysAll := propertySchemas.map (·.1)
            let propertiesToTraverse :=
              match limitToPath with
              | none => keysAll
              | some l =>
                match l.head? with
                | some (.str pr) => if keysAll.contains pr then [pr] else []
                | _ => []
            (concatMapM (fun pr =>
              match propsLookup propertySchemas pr with
              | some sub =>
                findTransientPropertiesInSchemaV2 fuel sub res (limitToPath.map (·.drop 1))
                  maxDepth (currentPath ++ [.str pr]) (nodes ++ [schema])
              | none => .ok []) propertiesToTraverse).map (recorded ++ ·)
          | some "array" =>
            if (match limitToPath with | none => true | some l => decide (l.length > 0)) then
              match schema.items with
              | some itemsSchema =>
                (findTransientPropertiesInSchemaV2 fuel itemsSchema res
                  (limitToPath.map (·.drop 1)) maxDepth (currentPath ++ [.num (-1)])
                  (nodes ++ [schema])).map (recorded ++ ·)
              | none => .ok recorded
            else .ok recorded
          | _ => .ok recorded
      match maxDepth with
      | none => if nodesInclude (fuel + 1) nodes schema then .ok [] else traverse ()
      | some md => if pathDepth currentPath > md then .ok [] else traverse ()

/-! ## Property Finder (src/schemas.ts, variant 1 lines 101-185, variant 2
lines 652-719)

Both variants iterate `allOf` via `_.reverse(schema.allOf)`, and lodash
`_.reverse` (like `Array.prototype.reverse`) reverses the array **in
place** — calling the finder mutates its schema argument.  The embedding
therefore returns the result *together with the post-call state of the
schema argument*, threading element mutations through the recursion.  The
state tracking is exact for tree-shaped (alias-free) schema arguments;
mutations applied to schemas reached through the resolver (objects owned by
the registry, not part of the argument) are not tracked. -/

/-- Result of the property finder: the returned schema (`none` =
`undefined`/`null`) plus the post-call state of the schema argument.
`typeError` models the variant-2 `TypeError` thrown when the finder recurses
on an `undefined` subschema; `fuelOut` models divergence. -/
inductive FPOut where
  | fuelOut
  | typeError
  | ok (result : Option Schema) (post : Schema)

/-- Result of one `allOf`/`oneOf` loop: `found` = some alternative returned a
non-absent schema (short-circuiting the loop), `notFound` = the loop ran to
the end; each carries the post-call state of the alternatives array. -/
inductive OptLoopOut where
  | fuelOut
  | typeError
  | found (result : Schema) (post : List Schema)
  | notFound (post : List Schema)

/-- The `allOf`/`oneOf` loop of variant-1 `findPropertyInSchema` (lines
124-138 and 142-156; both loops have the same body): resolve each
alternative through `refChase` (the `while (schemaOption && schemaOption.$ref)`
loop), skip it when resolution fails, recurse and return the first
non-absent result.  An alternative without `$ref` is recursed on directly,
so its in-place mutations land in the array; a resolved alternative is a
registry object, whose mutations are not tracked. -/
def fpOptionsLoopV1 (recur : Schema → FPOut) (refChase : Option Schema → Option (Option Schema)) :
    List Schema → OptLoopOut
  | [] => .notFound []
  | o :: rest =>
    match o.ref with
    | none =>
      match recur o with
      | .fuelOut => .fuelOut
      | .typeError => .typeError
      | .ok (some rr) o' => .found rr (o' :: rest)
      | .ok none o' =>
        match fpOptionsLoopV1 recur refChase rest with
        | .fuelOut => .fuelOut
        | .typeError => .typeError
        | .found rr rest' => .found rr (o' :: rest')
        | .notFound rest' => .notFound (o' :: rest')
    | some _ =>
      match refChase (some o) with
      | none => .fuelOut
      | some none =>
        match fpOptionsLoopV1 recur refChase rest with
        | .fuelOut => .fuelOut
        | .typeError => .typeError
        | .found rr rest' => .found rr (o :: rest')
        | .notFound rest' => .notFound (o :: rest')
      | some (some t) =>
        match recur t with
        | .fuelOut => .fuelOut
        | .typeError => .typeError
        | .ok (some rr) _ => .found rr (o :: rest)
        | .ok none _ =>
          match fpOptionsLoopV1 recur refChase rest with
          | .fuelOut => .fuelOut
          | .typeError => .typeError
          | .found rr rest' => .found rr (o :: rest')
          | .notFound rest' => .notFound (o :: rest')

/-- One evaluation step of variant-1 `findPropertyInSchema` (lines 101-185),
with `recur` standing for the recursive calls and `refChase` for the inner
`while` loops.  Dispatch order: `$ref`, empty path, `allOf` (reversed in
place), `oneOf`, then the type switch; on `object` a `null` subschema is
returned as absent; on `array` the first segment must satisfy `_.isInteger`
(true for any number including the `-1` wildcard, false for `NaN` and
strings). -/
def findPropStep (recur : Schema → List Seg → FPOut)
    (refChase : Option Schema → Option (Option Schema))
    (schema : Schema) (pathArr : List Seg) (res : SchemaRefResolver) : FPOut :=
  match schema.ref with
  | some r =>
    match res r with
    | none => .ok none schema
    | some t =>
      match recur t pathArr with
      | .ok result _ => .ok result schema
      | e => e
  | none =>
    if pathArr.isEmpty then .ok (some schema) schema
    else
      match schema.allOf with
      | some opts =>
        match fpOptionsLoopV1 (fun s => recur s pathArr) refChase opts.reverse with
        | .fuelOut => .fuelOut
        | .typeError => .typeError
        | .found rr post => .ok (some rr) (schema.setAllOf (some post))
        | .notFound post => .ok none (schema.setAllOf (some post))
      | none =>
        match schema.oneOf with
        | some opts =>
          match fpOptionsLoopV1 (fun s => recur s pathArr) refChase opts with
          | .fuelOut => .fuelOut
          | .typeError => .typeError
          | .found rr post => .ok (some rr) (schema.setOneOf (some post))
          | .notFound post => .ok none (schema.setOneOf (some post))
        | none =>
          match schema.type with
          | some "object" =>
            match pathArr with
            | [] => .ok none schema
            | seg :: restPath =>
              let props := schema.properties.getD []
              match propsLookup props (segKey seg) with
              | none => .ok none schema
              | some sub =>
                if restPath.isEmpty then .ok (some sub) schema
                else
                  match recur sub restPath with
                  | .ok result sub' =>
                    .ok result (schema.setProperties (some (propsUpdate props (segKey seg) sub')))
                  | e => e
          | some "array" =>
            match pathArr with
            | [] => .ok none schema
            | seg :: restPath =>
              if (match seg with | .num _ => true | _ => false) then
                match schema.items with
                | none => .ok none schema
                | some sub =>
                  match recur sub restPath with
                  | .ok result sub' => .ok result (schema.setItems (some sub'))
                  | e => e
              else .ok none schema
          | _ => .ok none schema

/-- Variant-1 `findPropertyInSchema` (lines 101-185): `findPropStep` driven
by fuel. -/
def findPropertyInSchema : Nat → Schema → List Seg → SchemaRefResolver → FPOut
  | 0, _, _, _ => .fuelOut
  | fuel + 1, schema, pathArr, res =>
    findPropStep (fun s p => findPropertyInSchema fuel s p res)
      (fun s => refChain fuel s res) schema pathArr res

/-- The `allOf` loop of variant-2 `findPropertyInSchema` (lines 659-674): it
*returns* inside the first alternative whose `type` is `'object'`,
regardless of whether that alternative defines the property (a one-segment
path yields the possibly-absent subschema; a longer path recurses on it,
throwing a `TypeError` when it is `undefined`); alternatives of other types
are skipped with a comment, and if none has type `'object'` the loop falls
through and the function returns `undefined`. -/
def fpAllOfLoopV2 (recur : Schema → List Seg → FPOut) (pathArr : List Seg) :
    List Schema → OptLoopOut × Bool
  | [] => (.notFound [], false)
  | o :: rest =>
    if o.type = some "object" then
      match pathArr with
      | [] => (.typeError, true)
      | seg :: restPath =>
        let props := o.properties.getD []
        let sub := propsLookup props (segKey seg)
        if restPath.isEmpty then
          (match sub with
           | some rr => (.found rr (o :: rest), true)
           | none => (.notFound (o :: rest), true))
        else
          match sub with
          | none => (.typeError, true)
          | some s =>
            match recur s restPath with
            | .fuelOut => (.fuelOut, true)
            | .typeError => (.typeError, true)
            | .ok result s' =>
              let o' := o.setProperties (some (propsUpdate props (segKey seg) s'))
              (match result with
               | some rr => (.found rr (o' :: rest), true)
               | none => (.notFound (o' :: rest), true))
    else
      match fpAllOfLoopV2 recur pathArr rest with
      | (.fuelOut, b) => (.fuelOut, b)
      | (.typeError, b) => (.typeError, b)
      | (.found rr rest', b) => (.found rr (o :: rest'), b)
      | (.notFound rest', b) => (.notFound (o :: rest'), b)

/-- The `oneOf` loop of variant-2 `findPropertyInSchema` (lines 675-686):
alternatives whose `type` is not `'object'` are skipped; the others are
recursed on (with the full remaining path) and the first truthy result is
returned; if none matches the function falls through to `undefined`. -/
def fpOneOfLoopV2 (recur : Schema → List Seg → FPOut) (pathArr : List Seg) :
    List Schema → OptLoopOut
  | [] => .notFound []
  | o :: rest =>
    if o.type = some "object" then
      match recur o pathArr with
      | .fuelOut => .fuelOut
      | .typeError => .typeError
      | .ok (some rr) o' => .found rr (o' :: rest)
      | .ok none o' =>
        match fpOneOfLoopV2 recur pathArr rest with
        | .fuelOut => .fuelOut
        | .typeError => .typeError
        | .found rr rest' => .found rr (o' :: rest')
        | .notFound rest' => .notFound (o' :: rest')
    else
      match fpOneOfLoopV2 recur pathArr rest with
      | .fuelOut => .fuelOut
      | .typeError => .typeError
      | .found rr rest' => .found rr (o :: rest')
      | .notFound rest' => .notFound (o :: rest')

/-- One evaluation step of variant-2 `findPropertyInSchema` (lines 652-719),
with `recur` standing for the recursive calls.  Dispatch order: `allOf`
(reversed in place), `oneOf`, `$ref`, then the type switch; there is no
empty-path shortcut and no integer check in the `array` case.  The returned
`Bool` of `fpAllOfLoopV2` distinguishes "some alternative returned" from
"the loop fell through" (both yield `undefined` when nothing was found, so
the distinction does not affect the result). -/
def findPropStepV2 (recur : Schema → List Seg → FPOut)
    (schema : Schema) (pathArr : List Seg) (res : SchemaRefResolver) : FPOut :=
  match schema.allOf with
  | some opts =>
    match fpAllOfLoopV2 recur pathArr opts.reverse with
    | (.fuelOut, _) => .fuelOut
    | (.typeError, _) => .typeError
    | (.found rr post, _) => .ok (some rr) (schema.setAllOf (some post))
    | (.notFound post, _) => .ok none (schema.setAllOf (some post))
  | none =>
    match schema.oneOf with
    | some opts =>
      match fpOneOfLoopV2 recur pathArr opts with
      | .fuelOut => .fuelOut
      | .typeError => .typeError
      | .found rr post => .ok (some rr) (schema.setOneOf (some post))
      | .notFound post => .ok none (schema.setOneOf (some post))
    | none =>
      match schema.ref with
      | some r =>
        match res r with
        | none => .ok none schema
        | some t =>
          match recur t pathArr with
          | .ok result _ => .ok result schema
          | e => e
      | none =>
        match schema.type with
        | some "object" =>
          match pathArr with
          | [] => .ok none schema
          | seg :: restPath =>
            let props := schema.properties.getD []
            match propsLookup props (segKey seg) with
            | none => .ok none schema
            | some sub =>
              if restPath.isEmpty then .ok (some sub) schema
              else
                match recur sub restPath with
                | .ok result sub' =>
                  .ok result (schema.setProperties (some (propsUpdate props (segKey seg) sub')))
                | e => e
        | some "array" =>
          match schema.items with
          | none => .ok none schema
          | some sub =>
            match recur sub (pathArr.drop 1) with
            | .ok result sub' => .ok result (schema.setItems (some sub'))
            | e => e
        | _ => .ok none schema

/-- Variant-2 `findPropertyInSchema` (lines 652-719): `findPropStepV2` driven
by fuel. -/
def findPropertyInSchemaV2 : Nat → Schema → List Seg → SchemaRefResolver → FPOut
  | 0, _, _, _ => .fuelOut
  | fuel + 1, schema, pathArr, res =>
    findPropStepV2 (fun s p => findPropertyInSchemaV2 fuel s p res) schema pathArr res

/-! ## Required-Property Checker (src/schemas.ts, variant 1 lines 542-590;
variant 2 has no such function) -/

/-- The `allOf`/`oneOf` loop of `propertyIsRequiredInSchema` (lines 561-565):
return `true` as soon as some alternative reports the path required; when the
loop completes without a truthy result the function body ends without a
`return` statement, so the JS function returns `undefined` — modelled as
`some none` (`none` would be fuel exhaustion). -/
def reqOptionsLoop (recur : Schema → Option (Option Bool)) : List Schema → Option (Option Bool)
  | [] => some none
  | o :: rest =>
    match recur o with
    | none => none
    | some (some true) => some (some true)
    | some _ => reqOptionsLoop recur rest

/-- One evaluation step of `propertyIsRequiredInSchema` (lines 542-590),
with `recur` standing for the recursive calls.  The JS function returns
`true`, `false` or (falling through the alternatives loop) `undefined`:
result type `Option Bool` inside the fuel `Option`.  At an `object` node the
`required` check precedes any existence check (`required.includes(pathArr[0])`
is `false` for a number/`NaN` segment and for an exhausted path); a listed
but missing subschema yields `true`; an `array` node yields `false` for a
final segment and `true` otherwise; any other type yields `true`. -/
def reqStep (recur : Schema → List Seg → Option (Option Bool)) (schema : Schema)
    (pathArr : List Seg) (res : SchemaRefResolver) : Option (Option Bool) :=
  match schema.ref with
  | some r =>
    match res r with
    | none => some (some false)
    | some t => recur t pathArr
  | none =>
    match (match schema.allOf with | some l => some l | none => schema.oneOf) with
    | some opts => reqOptionsLoop (fun o => recur o pathArr) opts
    | none =>
      match schema.type with
      | some "object" =>
        let requiredList := schema.required.getD []
        let firstListed :=
          match pathArr.head? with
          | some (.str k) => requiredList.contains k
          | _ => false
        if !firstListed then some (some false)
        else
          match pathArr with
          | [] => some (some false)
          | seg :: restPath =>
            match propsLookup (schema.properties.getD []) (segKey seg) with
            | none => some (some true)
            | some sub =>
              if restPath.isEmpty then some (some true)
              else recur sub restPath
      | some "array" =>
        if pathArr.length = 1 then some (some false) else some (some true)
      | _ => some (some true)

/-- `propertyIsRequiredInSchema` (lines 542-590): `reqStep` driven by fuel. -/
def propertyIsRequiredInSchema : Nat → Schema → List Seg → SchemaRefResolver →
    Option (Option Bool)
  | 0, _, _, _ => none
  | fuel + 1, schema, pathArr, res =>
    reqStep (fun s pa => propertyIsRequiredInSchema fuel s pa res) schema pathArr res

/-! ## Schema registry (src/registry.ts; both variants' wrapper methods are
plain delegations with no `try`/`catch`) -/

/-- `SchemaRegistry`: the id→schema map (association list in registration
order) and the `$ref`-to-id translator. -/
structure SchemaRegistry where
  schemas : List (String × Schema)
  schemaRefTranslator : String → String

/-- `SchemaRegistry.getSchema`. -/
def SchemaRegistry.getSchema (reg : SchemaRegistry) (name : String) : Option Schema :=
  (reg.schemas.find? (·.1 == name)).map (·.2)

/-- `SchemaRegistry.resolveSchemaRef` (lines 184-187 / 416-419). -/
def SchemaRegistry.resolveSchemaRef (reg : SchemaRegistry) : SchemaRefResolver :=
  fun ref => reg.getSchema (reg.schemaRefTranslator ref)

/-- The registry wrapper `SchemaRegistry.findRelationshipsInSchema`
(lines 140-147 / 352-359): it supplies the registry's own resolver and the
default recursion arguments, and returns whatever the underlying function
returns — errors included, since there is no `try`/`catch`. -/
def SchemaRegistry.findRelationshipsInSchema (fuel : Nat) (reg : SchemaRegistry)
    (schema : Schema) (allowedStorage : Option (List String))
    (limitToPath : Option (List Seg)) (maxDepth : Option Nat) :
    Except Err (List Relationship) :=
  Schematools.findRelationshipsInSchema fuel schema reg.resolveSchemaRef allowedStorage
    limitToPath maxDepth [] [] 0

/-! ## `mapPaths` (src/paths.ts lines 101-131)

`mapPaths` walks arbitrary object/array data, so its input is modelled as a
heap: a finite store of numbered nodes (`JNode`), with values (`JVal`) being
`null`, a string primitive, or the address of a node — JS object identity is
address equality, and cyclic inputs are stores whose nodes reach themselves.
The output object graph is built fresh (`mappedObject = {}`) and keys whose
value was already visited are skipped, so the result is a tree (`TVal`).
The `visited` argument is one shared mutable array: the object branch pushes
into it and passes it down, so the embedding threads it through and returns
its final state; the array branch calls `mapPaths(element, transformPath)`
*without* the `visited` argument, so each element starts from a fresh `[]`
and the mutations made there are lost.  The path transformer is modelled as
`String → String` (transformers that also return `additionalOptions` are not
needed by any claim).  The outer `Option` is fuel: `none` models an
execution that does not terminate. -/

inductive JVal where
  | null
  | prim (s : String)
  | addr (a : Nat)
deriving DecidableEq, Repr

inductive JNode where
  | obj (fields : List (String × JVal))
  | arr (elems : List JVal)
deriving DecidableEq, Repr

/-- Result values of `mapPaths` (always a tree, see above). -/
inductive TVal where
  | null
  | prim (s : String)
  | obj (fields : List (String × TVal))
  | arr (elems : List TVal)

/-- `visited.includes(value)`: the array holds only (non-array) objects, so a
match requires the value to be an address present in it. -/
def visitedIncludes (visited : List Nat) : JVal → Bool
  | .addr a => visited.contains a
  | _ => false

/-- The `x.map((element) => mapPaths(element, transformPath))` of the array
branch: each element is processed with the *default* `visited = []`. -/
def mapPathsArr (recur : JVal → List Nat → Option (TVal × List Nat)) :
    List JVal → Option (List TVal)
  | [] => some []
  | v :: rest => do
    let (t, _) ← recur v []
    let ts ← mapPathsArr recur rest
    some (t :: ts)

/-- The `for (const key in x)` loop of the object branch, threading the
shared `visited` array: a field literally named `path` holding a string is
transformed; a field whose value is already in `visited` is skipped
entirely; otherwise the field is recursed on with the same `visited`. -/
def mapPathsFields (recur : JVal → List Nat → Option (TVal × List Nat)) (tr : String → String) :
    List (String × JVal) → List Nat → Option (List (String × TVal) × List Nat)
  | [], visited => some ([], visited)
  | (k, v) :: rest, visited =>
    match k, v with
    | "path", .prim s => do
      let (ts, v') ← mapPathsFields recur tr rest visited
      some (("path", TVal.prim (tr s)) :: ts, v')
    | _, _ =>
      if visitedIncludes visited v then
        mapPathsFields recur tr rest visited
      else do
        let (t, v') ← recur v visited
        let (ts, v'') ← mapPathsFields recur tr rest v'
        some ((k, t) :: ts, v'')

/-- `mapPaths` (src/paths.ts lines 101-131) over a store. -/
def mapPaths (store : List (Nat × JNode)) (tr : String → String) :
    Nat → JVal → List Nat → Option (TVal × List Nat)
  | 0, _, _ => none
  | fuel + 1, x, visited =>
    match x with
    | .null => some (.null, visited)
    | .prim s => some (.prim s, visited)
    | .addr a =>
      match (store.find? (·.1 == a)).map (·.2) with
      | none => some (.null, visited)
      | some (JNode.arr elems) =>
        (mapPathsArr (mapPaths store tr fuel) elems).map fun l => (.arr l, visited)
      | some (JNode.obj fields) =>
        (mapPathsFields (mapPaths store tr fuel) tr fields (visited ++ [a])).map
          fun p => (.obj p.1, p.2)

/-! ## Helper constructors and concrete schemas used by the claims -/

/-- An object schema `{type: 'object', properties: …}` with no other keys. -/
def objectSchema (props : List (String × Schema)) : Schema :=
  .mk none (some "object") (some props) none none none none none none none none

/-- An object schema with a `required` list. -/
def objectSchemaReq (props : List (String × Schema)) (req : List String) : Schema :=
  .mk none (some "object") (some props) none none none (some req) none none none none

/-- A bare composition node `{allOf: [a, b]}`. -/
def allOfPair (a b : Schema) : Schema :=
  .mk none none none none (some [a, b]) none none none none none none

/-- The `name` property of the spec's `Person` example: `{type: 'string'}`. -/
def nameNode : Schema := .mk none (some "string") none none none none none none none none none

/-- The `manager` property of the `Person` example:
`{$ref: '#Person', storage: 'ref', entityType: 'Person'}`. -/
def managerNode : Schema :=
  .mk (some "#Person") none none none none none none none (some "Person") (some "ref") none

/-- The `Person` schema of the spec's example (§8). -/
def personSchema : Schema := objectSchema [("name", nameNode), ("manager", managerNode)]

/-- A resolver mapping `#Person` to the `Person` schema. -/
def personResolver : SchemaRefResolver := fun r => if r = "#Person" then some personSchema else none

/-- The relationship the code reports at path `manager` (depth 1, not 0). -/
def relManager : Relationship :=
  { path := "manager", toMany := false, storage := "ref", entityTypeName := some "Person",
    schemaRef := some "#Person", schema := personSchema, foreignKeyPath := none,
    depthFromParent := 1 }

/-- The second relationship the code reports, at path `manager.manager`. -/
def relManagerManager : Relationship :=
  { path := "manager.manager", toMany := false, storage := "ref",
    entityTypeName := some "Person", schemaRef := some "#Person", schema := personSchema,
    foreignKeyPath := none, depthFromParent := 0 }

/-- The node `{$ref: 'B'}` of the cyclic two-schema graph. -/
def refToB : Schema := .mk (some "B") none none none none none none none none none none

/-- The node `{$ref: 'A'}` of the cyclic two-schema graph. -/
def refToA : Schema := .mk (some "A") none none none none none none none none none none

/-- Schema `A = {type: 'object', properties: {b: {$ref: 'B'}}}`. -/
def cyclicA : Schema := objectSchema [("b", refToB)]

/-- Schema `B = {type: 'object', properties: {a: {$ref: 'A'}}}`. -/
def cyclicB : Schema := objectSchema [("a", refToA)]

/-- The resolver of the cyclic graph. -/
def cyclicResolver : SchemaRefResolver :=
  fun r => if r = "A" then some cyclicA else if r = "B" then some cyclicB else none

/-- A schema `X = {type: 'object', storage: 'inverse-ref'}` with no
`foreignKey`: per the spec's effective-value semantics, a node referencing it
is an `inverse-ref` relationship without a foreign key. -/
def inverseRefTarget : Schema :=
  .mk none (some "object") none none none none none none none (some "inverse-ref") none

/-- The node `{$ref: '#X'}`. -/
def refToInverseRef : Schema := .mk (some "#X") none none none none none none none none none none

/-- A node declaring `storage: 'inverse-ref'` itself, with no `foreignKey`. -/
def inverseRefOwn : Schema :=
  .mk none none none none none none none none none (some "inverse-ref") none

/-- A registry holding `X` under its own reference string, with the default
identity translator. -/
def invRegistry : SchemaRegistry :=
  { schemas := [("#X", inverseRefTarget)], schemaRefTranslator := fun r => r }

/-- A transient-marked schema `T = {type: 'string', transient: true}`. -/
def transientTarget : Schema :=
  .mk none (some "string") none none none none none (some true) none none none

/-- A node `{$ref: '#T', transient: false}` — referencing `T` but explicitly
declaring itself non-transient. -/
def transientFalseNode : Schema :=
  .mk (some "#T") none none none none none none (some false) none none none

/-- A root object schema with property `a` set to `transientFalseNode`. -/
def transientRoot : Schema := objectSchema [("a", transientFalseNode)]

/-- A resolver mapping `#T` to the transient-marked schema. -/
def transientResolver : SchemaRefResolver :=
  fun r => if r = "#T" then some transientTarget else none

/-- An `allOf` alternative of type `object` (no properties). -/
def allOfAltObject : Schema :=
  .mk none (some "object") (some []) none none none none none none none none

/-- An `allOf` alternative of type `string`. -/
def allOfAltString : Schema :=
  .mk none (some "string") none none none none none none none none none

/-- A schema `{allOf: [object-alternative, string-alternative]}`. -/
def allOfParent : Schema := allOfPair allOfAltObject allOfAltString

/-- The store of the self-containing array `a = []; a.push(a)`. -/
def selfArrayStore : List (Nat × JNode) := [(0, JNode.arr [JVal.addr 0])]

/-- The store of the self-referencing object `o = {}; o.x = o`. -/
def selfObjectStore : List (Nat × JNode) := [(0, JNode.obj [("x", JVal.addr 0)])]

/-- An `allOf` alternative for the C10 witness: an object schema with no
`required` list, so no path is ever required under it. -/
def reqAltEmpty : Schema := .mk none (some "object") none none none none none none none none none

/-- A schema `{allOf: [reqAltEmpty]}` for the C10 witness. -/
def reqParent : Schema := .mk none none none none (some [reqAltEmpty]) none none none none none none

/-- Concrete last-alternative property definition for the C4 witness. -/
def c4DefA : Schema := .mk none (some "string") none none none none none none none none none

/-- Concrete first-alternative property definition for the C4 witness. -/
def c4DefB : Schema := .mk none (some "number") none none none none none none none none none

/-- Properties of the C4 witness's first alternative. -/
def c4PropsA : List (String × Schema) := [("x", c4DefA)]

/-- Properties of the C4 witness's second alternative. -/
def c4PropsB : List (String × Schema) := [("x", c4DefB)]

/-- Leaf schema of the C7 witness. -/
def c7Leaf : Schema := .mk none (some "string") none none none none none none none none none

/-- Properties of the C7 witness's intermediate object. -/
def c7Props2 : List (String × Schema) := [("q", c7Leaf)]

/-- Properties of the C7 witness's root object. -/
def c7Props1 : List (String × Schema) := [("p", objectSchemaReq c7Props2 ["q"])]

/-! ## Supporting lemmas for the claim theorems -/

/-- A property lookup in a plain object schema returns the property's schema
without mutating anything (used inside the C4 proof). -/
theorem findProp_object_found (n : Nat) (props : List (String × Schema)) (p : String)
    (d : Schema) (r : SchemaRefResolver) (h : propsLookup props p = some d) :
    findPropertyInSchema (n + 1) (objectSchema props) [.str p] r =
      .ok (some d) (objectSchema props) := by
  show findPropStep (fun s pa => findPropertyInSchema n s pa r) (fun s => refChain n s r)
      (objectSchema props) [.str p] r = _
  rw [findPropStep.eq_def]
  simp only [objectSchema, Schema.ref, Schema.allOf, Schema.oneOf, Schema.type,
    Schema.properties, Option.getD, segKey, List.isEmpty, h]
  simp

/-- One `reqStep` over a plain object schema: the `required` check, then the
lookup, then recursion on the rest of the path (used inside the C7 proof). -/
theorem reqStep_object (recur : Schema → List Seg → Option (Option Bool))
    (props : List (String × Schema)) (req : List String) (p : String) (restPath : List Seg)
    (r : SchemaRefResolver) :
    reqStep recur (objectSchemaReq props req) (.str p :: restPath) r =
      (if req.contains p then
        (match propsLookup props p with
         | none => some (some true)
         | some sub => if restPath.isEmpty then some (some true) else recur sub restPath)
       else some (some false)) := by
  rw [reqStep.eq_def]
  simp only [objectSchemaReq, Schema.ref, Schema.allOf, Schema.oneOf, Schema.type,
    Schema.required, Schema.properties, Option.getD, List.head?, segKey]
  cases h : req.contains p <;> simp [h]

/-- When no alternative reports the path required (truthily), the
alternatives loop of `propertyIsRequiredInSchema` completes and the function
falls through to `undefined` (used inside the C10 proof). -/
theorem reqOptionsLoop_fallthrough (f : Schema → Option (Option Bool)) :
    ∀ opts : List Schema,
      (∀ o ∈ opts, ∃ b : Option Bool, f o = some b ∧ b ≠ some true) →
      reqOptionsLoop f opts = some none := by
  intro opts h
  induction opts with
  | nil => rfl
  | cons o rest ih =>
    obtain ⟨b, hb, hne⟩ := h o (List.mem_cons_self o rest)
    rw [reqOptionsLoop, hb]
    match b, hne with
    | none, _ => exact ih fun o' ho' => h o' (List.mem_cons_of_mem _ ho')
    | some false, _ => exact ih fun o' ho' => h o' (List.mem_cons_of_mem _ ho')
    | some true, hne => exact absurd rfl hne

/-! ## The claims -/

/-- C1, counterexample: on the spec's `Person` example with `maxDepth = 2`,
neither variant of `findRelationshipsInSchema` returns exactly one
relationship — the claimed single-`manager` result is wrong (the call
returns two relationships, and the one at `manager` has `depthFromParent`
1, not 0). -/
theorem c1_counterexample :
    (¬ ∃ r : Relationship,
      findRelationshipsInSchema 8 personSchema personResolver none none (some 2) [] [] 0 =
        .ok [r]) ∧
    (¬ ∃ r : Relationship,
      findRelationshipsInSchemaV2 8 personSchema personResolver none none (some 2) [] [] 0 =
        .ok [r]) := by
  constructor
  · rintro ⟨r, h⟩
    rw [show findRelationshipsInSchema 8 personSchema personResolver none none (some 2) [] [] 0 =
      .ok [relManager, relManagerManager] from rfl] at h
    simp at h
  · rintro ⟨r, h⟩
    rw [show findRelationshipsInSchemaV2 8 personSchema personResolver none none (some 2) [] [] 0 =
      .ok [relManager, relManagerManager] from rfl] at h
    simp at h

/-- C1, amended: `findRelationshipsInSchema(Person, resolve, undefined,
undefined, 2)` (both variants, any sufficient fuel) returns exactly two
relationships — `path = "manager"`, `storage = "ref"`, `entityTypeName =
"Person"`, `depthFromParent = 1`, and `path = "manager.manager"` with
`depthFromParent = 0` — and stops at the depth bound (nothing at
`manager.manager.manager`). -/
theorem c1_amended : ∀ n : Nat,
    findRelationshipsInSchema (n + 8) personSchema personResolver none none (some 2) [] [] 0 =
      .ok [relManager, relManagerManager] ∧
    findRelationshipsInSchemaV2 (n + 8) personSchema personResolver none none (some 2) [] [] 0 =
      .ok [relManager, relManagerManager] :=
  fun _ => ⟨rfl, rfl⟩

/-- C2: on the cyclic graph `A.properties.b = {$ref: B}`,
`B.properties.a = {$ref: A}`, with `limitToPath` and `maxDepth` unset, both
variants of `findRelationshipsInSchema` and of
`findTransientPropertiesInSchema` terminate with the finite result `[]`:
any fuel beyond the recursion's actual depth gives the same completed
answer, so the identity-based cycle guard does stop this traversal. -/
theorem c2_cycle_terminates : ∀ n : Nat,
    findRelationshipsInSchema (n + 8) cyclicA cyclicResolver none none none [] [] 0 = .ok [] ∧
    findTransientPropertiesInSchema (n + 8) cyclicA cyclicResolver none none [] [] = .ok [] ∧
    findRelationshipsInSchemaV2 (n + 8) cyclicA cyclicResolver none none none [] [] 0 = .ok [] ∧
    findTransientPropertiesInSchemaV2 (n + 8) cyclicA cyclicResolver none none [] [] = .ok [] :=
  fun _ => ⟨rfl, rfl, rfl, rfl⟩

/-- C3: the path round-trip fails in the code.  `dottedPathToArray "a[3]"`
yields `[str "a", NaN]` because the source applies `parseInt` to the text
before the bracket (`match[1]`) instead of the captured digits (`match[2]`),
so `toString ∘ toSegments` maps `"a[3]"` to `"a[NaN]"`; and
`toSegments ∘ toString` fails on `["a", 3]` for the same reason and on
`["a", "b"]` because the regex only splits at brackets, never at dots
(`"a.b"` comes back as the single segment `"a.b"`). -/
theorem c3_roundtrip_code_bug :
    dottedPathToArray "a[3]" = [.str "a", .nan] ∧
    arrayToDottedPath (dottedPathToArray "a[3]") = "a[NaN]" ∧
    "a[NaN]" ≠ "a[3]" ∧
    arrayToDottedPath [.str "a", .num 3] = "a[3]" ∧
    dottedPathToArray (arrayToDottedPath [.str "a", .num 3]) ≠ [.str "a", .num 3] ∧
    arrayToDottedPath [.str "a", .str "b"] = "a.b" ∧
    dottedPathToArray "a.b" = [.str "a.b"] ∧
    dottedPathToArray (arrayToDottedPath [.str "a", .str "b"]) ≠ [.str "a", .str "b"] :=
  ⟨by decide, by decide, by decide, by decide, by decide, by decide, by decide, by decide⟩

/-- C4: for a schema `{allOf: [A, B]}` whose alternatives are object schemas
both defining property `p`, the Property Finder (both variants) resolves `p`
to the *last* alternative's definition `dB` (the post-state records the
in-place `_.reverse` of the `allOf` array), while the Relationship Finder
(both variants) concatenates the relationships contributed by *both*
alternatives with no first-match short-circuit. -/
theorem c4_allof_precedence (n : Nat) (propsA propsB : List (String × Schema)) (p : String)
    (dA dB : Schema) (r : SchemaRefResolver) (allowedStorage : Option (List String))
    (_hA : propsLookup propsA p = some dA) (hB : propsLookup propsB p = some dB) :
    findPropertyInSchema (n + 2) (allOfPair (objectSchema propsA) (objectSchema propsB))
        [.str p] r =
      .ok (some dB) ((allOfPair (objectSchema propsA) (objectSchema propsB)).setAllOf
        (some [objectSchema propsB, objectSchema propsA])) ∧
    findPropertyInSchemaV2 (n + 2) (allOfPair (objectSchema propsA) (objectSchema propsB))
        [.str p] r =
      .ok (some dB) ((allOfPair (objectSchema propsA) (objectSchema propsB)).setAllOf
        (some [objectSchema propsB, objectSchema propsA])) ∧
    (findRelationshipsInSchema (n + 1) (allOfPair (objectSchema propsA) (objectSchema propsB))
        r allowedStorage none none [] [] 0 =
      match
        findRelationshipsInSchema n (objectSchema propsA) r allowedStorage none none []
          [allOfPair (objectSchema propsA) (objectSchema propsB)] 0,
        findRelationshipsInSchema n (objectSchema propsB) r allowedStorage none none []
          [allOfPair (objectSchema propsA) (objectSchema propsB)] 0 with
      | .ok ra, .ok rb => .ok (ra ++ rb)
      | .error e, _ => .error e
      | .ok _, .error e => .error e) ∧
    (findRelationshipsInSchemaV2 (n + 1) (allOfPair (objectSchema propsA) (objectSchema propsB))
        r allowedStorage none none [] [] 0 =
      match
        findRelationshipsInSchemaV2 n (objectSchema propsA) r allowedStorage none none []
          [allOfPair (objectSchema propsA) (objectSchema propsB)] 0,
        findRelationshipsInSchemaV2 n (objectSchema propsB) r allowedStorage none none []
          [allOfPair (objectSchema propsA) (objectSchema propsB)] 0 with
      | .ok ra, .ok rb => .ok (ra ++ rb)
      | .error e, _ => .error e
      | .ok _, .error e => .error e) := by
  refine ⟨?_, ?_, ?_, ?_⟩
  · show findPropStep (fun s pa => findPropertyInSchema (n + 1) s pa r)
        (fun s => refChain (n + 1) s r)
        (allOfPair (objectSchema propsA) (objectSchema propsB)) [.str p] r = _
    rw [findPropStep.eq_def]
    simp only [allOfPair, Schema.ref, Schema.allOf]
    rw [show [objectSchema propsA, objectSchema propsB].reverse =
      [objectSchema propsB, objectSchema propsA] from rfl]
    rw [fpOptionsLoopV1]
    simp only [objectSchema, Schema.ref]
    rw [show (Schema.mk none (some "object") (some propsB) none none none none none none none
      none) = objectSchema propsB from rfl, findProp_object_found n propsB p dB r hB]
    simp [Schema.setAllOf, objectSchema]
  · show findPropStepV2 (fun s pa => findPropertyInSchemaV2 (n + 1) s pa r)
        (allOfPair (objectSchema propsA) (objectSchema propsB)) [.str p] r = _
    rw [findPropStepV2.eq_def]
    simp only [allOfPair, Schema.allOf]
    rw [show [objectSchema propsA, objectSchema propsB].reverse =
      [objectSchema propsB, objectSchema propsA] from rfl]
    rw [fpAllOfLoopV2]
    simp only [objectSchema, Schema.type, Schema.properties, Option.getD, segKey,
      List.isEmpty, hB]
    simp
  · have key : findRelationshipsInSchema (n + 1)
        (allOfPair (objectSchema propsA) (objectSchema propsB)) r allowedStorage none none
        [] [] 0 =
        (concatMapM (fun o => findRelationshipsInSchema n o r allowedStorage none none []
          [allOfPair (objectSchema propsA) (objectSchema propsB)] 0)
          [objectSchema propsA, objectSchema propsB]).map (fun l => l) := rfl
    rw [key]
    rcases hfa : findRelationshipsInSchema n (objectSchema propsA) r allowedStorage none none []
        [allOfPair (objectSchema propsA) (objectSchema propsB)] 0 with e | ra <;>
      rcases hfb : findRelationshipsInSchema n (objectSchema propsB) r allowedStorage none none []
          [allOfPair (objectSchema propsA) (objectSchema propsB)] 0 with e2 | rb <;>
      simp [concatMapM, hfa, hfb, Except.map, Except.bind, bind, Bind.bind, pure, Except.pure]
  · have key : findRelationshipsInSchemaV2 (n + 1)
        (allOfPair (objectSchema propsA) (objectSchema propsB)) r allowedStorage none none
        [] [] 0 =
        concatMapM (fun o => findRelationshipsInSchemaV2 n o r allowedStorage none none []
          [allOfPair (objectSchema propsA) (objectSchema propsB)] 0)
          [objectSchema propsA, objectSchema propsB] := rfl
    rw [key]
    rcases hfa : findRelationshipsInSchemaV2 n (objectSchema propsA) r allowedStorage none none []
        [allOfPair (objectSchema propsA) (objectSchema propsB)] 0 with e | ra <;>
      rcases hfb : findRelationshipsInSchemaV2 n (objectSchema propsB) r allowedStorage none none []
          [allOfPair (objectSchema propsA) (objectSchema propsB)] 0 with e2 | rb <;>
      simp [concatMapM, hfa, hfb, Except.map, Except.bind, bind, Bind.bind, pure, Except.pure]

/-- C4, witness: a concrete schema whose two object alternatives both define
property `x`; the Property Finder returns the last alternative's definition. -/
theorem c4_witness :
    propsLookup c4PropsA "x" = some c4DefA ∧
    propsLookup c4PropsB "x" = some c4DefB ∧
    findPropertyInSchema 2 (allOfPair (objectSchema c4PropsA) (objectSchema c4PropsB))
        [.str "x"] (fun _ => none) =
      .ok (some c4DefB) ((allOfPair (objectSchema c4PropsA) (objectSchema c4PropsB)).setAllOf
        (some [objectSchema c4PropsB, objectSchema c4PropsA])) :=
  ⟨rfl, rfl,
    (c4_allof_precedence 0 c4PropsA c4PropsB "x" c4DefA c4DefB (fun _ => none) none
      rfl rfl).1⟩

/-- C5: the claim is wrong about the code (code bug).  A node `{$ref: '#X'}`
whose referenced schema `X` declares `storage: 'inverse-ref'` with no
`foreignKey` has effective storage `inverse-ref` and no effective foreign
key under the spec's precedence rule, yet `findRelationshipsInSchema`
returns `ok []` instead of raising `SchemaError`: the spread
`...relationshipProperties` overwrites the referenced schema's values with
the referencing node's `undefined`s (see `spreadMerge`).  When the node
itself declares `storage: 'inverse-ref'` without `foreignKey` the
`SchemaError` is raised, and the Registry wrapper propagates it unchanged. -/
theorem c5_inverse_ref_code_bug : ∀ n : Nat,
    findRelationshipsInSchema (n + 3) refToInverseRef invRegistry.resolveSchemaRef
      none none none [] [] 0 = .ok [] ∧
    (∀ r : SchemaRefResolver,
      findRelationshipsInSchema (n + 3) inverseRefOwn r none none none [] [] 0 =
        .error (.schemaError
          "Missing foreign key path in relationship with storage type inverse-ref")) ∧
    SchemaRegistry.findRelationshipsInSchema (n + 3) invRegistry inverseRefOwn none none none =
      .error (.schemaError
        "Missing foreign key path in relationship with storage type inverse-ref") :=
  fun _ => ⟨rfl, fun _ => rfl, rfl⟩

/-- C6: the claim is wrong about the code (code bug).  For the root schema
`{type: 'object', properties: {a: {$ref: '#T', transient: false}}}` with
`T = {type: 'string', transient: true}`, both variants of
`findTransientPropertiesInSchema` *do* report path `a` as transient: the
merged `transient` local (where the referencing node's `false` takes
precedence) is computed but never read — the recording step tests
`schema.transient` on the referenced schema instead. -/
theorem c6_transient_override_code_bug : ∀ n : Nat,
    findTransientPropertiesInSchema (n + 3) transientRoot transientResolver none none [] [] =
      .ok ["a"] ∧
    findTransientPropertiesInSchemaV2 (n + 3) transientRoot transientResolver none none [] [] =
      .ok ["a"] :=
  fun _ => ⟨rfl, rfl⟩

/-- C7: for a root object schema with `required = req1` and a property `p1`
holding an object schema with `required = req2` and a property `p2`,
`propertyIsRequiredInSchema` on the two-segment path `[p1, p2]` returns
exactly the conjunction `req1.contains p1 && req2.contains p2`: true iff
both `required` sets list their segment, false as soon as either entry is
removed. -/
theorem c7_nested_required (n : Nat) (p1 p2 : String) (req1 req2 : List String)
    (props1 props2 : List (String × Schema)) (leaf : Schema) (r : SchemaRefResolver)
    (h1 : propsLookup props1 p1 = some (objectSchemaReq props2 req2))
    (h2 : propsLookup props2 p2 = some leaf) :
    propertyIsRequiredInSchema (n + 2) (objectSchemaReq props1 req1)
        [.str p1, .str p2] r =
      some (some (req1.contains p1 && req2.contains p2)) := by
  show reqStep (fun s pa => propertyIsRequiredInSchema (n + 1) s pa r)
    (objectSchemaReq props1 req1) [.str p1, .str p2] r = _
  rw [reqStep_object]
  rw [h1]
  cases hc1 : req1.contains p1 with
  | false => simp
  | true =>
    simp only [if_true, List.isEmpty, Bool.false_eq_true, if_false]
    show propertyIsRequiredInSchema (n + 1) (objectSchemaReq props2 req2) [.str p2] r = _
    show reqStep (fun s pa => propertyIsRequiredInSchema n s pa r)
      (objectSchemaReq props2 req2) [.str p2] r = _
    rw [reqStep_object]
    rw [h2]
    cases hc2 : req2.contains p2 <;> simp

/-- C7, witness: root requires `p`, the intermediate object requires `q`, and
the two-segment lookup `p.q` is reported required. -/
theorem c7_witness :
    propsLookup c7Props1 "p" = some (objectSchemaReq c7Props2 ["q"]) ∧
    propsLookup c7Props2 "q" = some c7Leaf ∧
    propertyIsRequiredInSchema 2 (objectSchemaReq c7Props1 ["p"])
        [.str "p", .str "q"] (fun _ => none) =
      some (some (List.contains ["p"] "p" && List.contains ["q"] "q")) :=
  ⟨rfl, rfl,
    c7_nested_required 0 "p" "q" ["p"] ["q"] c7Props1 c7Props2 c7Leaf (fun _ => none) rfl rfl⟩

/-- C8: the claim is wrong about the code (code bug).  `findPropertyInSchema`
(both variants) mutates its schema argument: `_.reverse(schema.allOf)`
reverses the `allOf` array in place, so after a lookup of a missing property
on `{allOf: [objectAlt, stringAlt]}` the argument's `allOf` is
`[stringAlt, objectAlt]`, a different schema value.  (The other traversal
functions build fresh arrays and leave the argument untouched, which the
state-free embeddings `findRelationshipsInSchema`,
`findTransientPropertiesInSchema` and `propertyIsRequiredInSchema` record by
construction.) -/
theorem c8_find_property_mutates : ∀ (n : Nat) (r : SchemaRefResolver),
    findPropertyInSchema (n + 2) allOfParent [.str "zz"] r =
      .ok none (allOfParent.setAllOf (some [allOfAltString, allOfAltObject])) ∧
    findPropertyInSchemaV2 (n + 2) allOfParent [.str "zz"] r =
      .ok none (allOfParent.setAllOf (some [allOfAltString, allOfAltObject])) ∧
    allOfParent.setAllOf (some [allOfAltString, allOfAltObject]) ≠ allOfParent := by
  intro n r
  refine ⟨rfl, rfl, ?_⟩
  intro h
  simp [allOfParent, allOfPair, allOfAltObject, allOfAltString, Schema.setAllOf] at h

/-- C9: the claim is wrong about the code (code bug).  `mapPaths` does not
terminate on every cyclic input: for the self-containing array
`a = []; a.push(a)` the walk never returns (every fuel is exhausted),
because the array branch recurses on the elements *without passing
`visited`*, so the guard never sees the revisited container.  The guard does
work for object-field cycles: on `o = {}; o.x = o` the walk terminates,
skipping the visited field. -/
theorem c9_map_paths_cycle_code_bug :
    (∀ (tr : String → String) (fuel : Nat),
      mapPaths selfArrayStore tr fuel (.addr 0) [] = none) ∧
    (∀ (tr : String → String) (n : Nat),
      mapPaths selfObjectStore tr (n + 1) (.addr 0) [] = some (.obj [], [0])) := by
  constructor
  · intro tr fuel
    induction fuel with
    | zero => rfl
    | succ f ih =>
      have step : mapPaths selfArrayStore tr (f + 1) (.addr 0) [] =
          ((mapPaths selfArrayStore tr f (.addr 0) []).bind fun pr =>
            (mapPathsArr (mapPaths selfArrayStore tr f) []).bind fun ts =>
            some (pr.1 :: ts)).map (fun l => (TVal.arr l, ([] : List Nat))) := rfl
      rw [step, ih]
      rfl
  · intro tr n
    rfl

/-- C10: for a schema with a non-empty `allOf` (or `oneOf`) list none of
whose alternatives reports the path required (truthily),
`propertyIsRequiredInSchema` returns `undefined` (modelled `some none`),
not the boolean `false`: the alternatives loop falls through and the
function body ends without a `return`. -/
theorem c10_fallthrough_undefined (n : Nat) (s : Schema) (opts : List Schema)
    (path : List Seg) (r : SchemaRefResolver)
    (href : s.ref = none)
    (hopts : (match s.allOf with | some l => some l | none => s.oneOf) = some opts)
    (hall : ∀ o ∈ opts, ∃ b : Option Bool,
      propertyIsRequiredInSchema n o path r = some b ∧ b ≠ some true) :
    propertyIsRequiredInSchema (n + 1) s path r = some none := by
  show reqStep (fun s' pa => propertyIsRequiredInSchema n s' pa r) s path r = some none
  rw [reqStep.eq_def, href]
  rw [hopts]
  exact reqOptionsLoop_fallthrough _ opts hall

/-- C10, witness: a schema whose single `allOf` alternative has an empty
`required` set yields `undefined` for path `x`. -/
theorem c10_witness :
    reqParent.ref = none ∧
    (match reqParent.allOf with | some l => some l | none => reqParent.oneOf) =
      some [reqAltEmpty] ∧
    (∀ o ∈ [reqAltEmpty], ∃ b : Option Bool,
      propertyIsRequiredInSchema 1 o [.str "x"] (fun _ => none) = some b ∧ b ≠ some true) ∧
    propertyIsRequiredInSchema 2 reqParent [.str "x"] (fun _ => none) = some none := by
  refine ⟨rfl, rfl, ?_, ?_⟩
  · intro o ho
    rw [List.mem_singleton] at ho
    subst ho
    exact ⟨some false, rfl, by simp⟩
  · exact c10_fallthrough_undefined 1 reqParent [reqAltEmpty] [.str "x"] (fun _ => none) rfl rfl
      (by
        intro o ho
        rw [List.mem_singleton] at ho
        subst ho
        exact ⟨some false, rfl, by simp⟩)

end Schematools
